import Mathlib

/-! Verification development for `scion/scion.go`.

The package adapts SCION/PAN addressing and transport to the `net.Conn` world
of the node.  This file embeds its functions in Lean:

* Go strings are lists of characters.  Every delimiter the code looks for
  (`:`, `,`, `[`, `]`) is ASCII, so searching characters and searching bytes
  agree on text.
* A Go result `(v, err)` keeps its shape: a structure with an optional error
  (`none` is `nil`).
* The standard-library helpers the package calls (`net.SplitHostPort`,
  `net.JoinHostPort`, `strings.Contains`, `context.WithTimeout`) are embedded
  from their Go definitions.
* The PAN library (`pan.ParseUDPAddr`, `pan.SplitHostPort`) and the network
  collaborators of `Dial` are not part of the sources; the functions of the
  package take them as parameters.
-/

set_option autoImplicit false

/-- A Go `string`, as the list of its characters. -/
abbrev GoString := List Char

/-- Go `error` values the package can see. -/
inductive Error where
  /-- The `*net.AddrError` of the standard library: reason and address. -/
  | addrError (err : String) (addr : GoString)
  /-- A failure of the PathAddress parser. -/
  | parseError (msg : String)
  /-- The `context.Canceled` error. -/
  | canceled
  /-- The `context.DeadlineExceeded` error. -/
  | deadlineExceeded
  /-- Any other error of a collaborator, told apart by a number. -/
  | other (code : Nat)
  deriving DecidableEq, Repr

deriving instance DecidableEq for Except

/-- Go result triple `(host, port string, err error)`. -/
structure HostPortErr where
  host : GoString
  port : GoString
  err : Option Error
  deriving DecidableEq, Repr

namespace bytealg

/-- Go `bytealg.IndexByteString`: index of the first `c`; `none` stands for `-1`. -/
def IndexByteString : GoString → Char → Option Nat
  | [], _ => none
  | x :: xs, c => if x = c then some 0 else (IndexByteString xs c).map (· + 1)

/-- Go `bytealg.LastIndexByteString`: index of the last `c`; `none` stands for `-1`. -/
def LastIndexByteString : GoString → Char → Option Nat
  | [], _ => none
  | x :: xs, c =>
    match LastIndexByteString xs c with
    | some i => some (i + 1)
    | none => if x = c then some 0 else none

end bytealg

namespace strings

/-- Go `strings.Contains`: `substr` occurs in `s`. -/
def Contains (s substr : GoString) : Bool :=
  s.tails.any fun t => substr.isPrefixOf t

end strings

namespace net

open bytealg

/-- The `addrErr` closure of `net.SplitHostPort`. -/
def addrErr (addr : GoString) (why : String) : HostPortErr :=
  ⟨[], [], some (Error.addrError why addr)⟩

def missingPort : String := "missing port in address"

def tooManyColons : String := "too many colons in address"

/-- The tail of `net.SplitHostPort` after `host`, `j` and `k` are known: the two
bracket checks and the port `hostport[i+1:]`. -/
def splitTail (hostport host : GoString) (i j k : Nat) : HostPortErr :=
  if (IndexByteString (hostport.drop j) '[').isSome then
    addrErr hostport "unexpected [ in address"
  else if (IndexByteString (hostport.drop k) ']').isSome then
    addrErr hostport "unexpected ] in address"
  else
    ⟨host, hostport.drop (i + 1), none⟩

/-- Go `net.SplitHostPort` (net/ipsock.go).  The three messages about a
bracket are written without the quotes Go puts around the bracket. -/
def SplitHostPort (hostport : GoString) : HostPortErr :=
  match LastIndexByteString hostport ':' with
  | none => addrErr hostport missingPort
  | some i =>
    if hostport.head? = some '[' then
      match IndexByteString hostport ']' with
      | none => addrErr hostport "missing ] in address"
      | some e =>
        if e + 1 = hostport.length then
          addrErr hostport missingPort
        else if e + 1 = i then
          splitTail hostport ((hostport.take e).drop 1) i 1 (e + 1)
        else if hostport.get? (e + 1) = some ':' then
          addrErr hostport tooManyColons
        else
          addrErr hostport missingPort
    else
      let host := hostport.take i
      if (IndexByteString host ':').isSome then
        addrErr hostport tooManyColons
      else
        splitTail hostport host i 0 0

/-- Go `net.JoinHostPort` (net/ipsock.go): brackets around a host with a colon. -/
def JoinHostPort (host port : GoString) : GoString :=
  if (IndexByteString host ':').isSome then
    "[".toList ++ host ++ "]:".toList ++ port
  else
    host ++ ":".toList ++ port

end net

namespace netip

/-- Go `netip.Addr`: the zero value, an IPv4 address (four bytes) or an IPv6
address (eight 16-bit groups and a zone). -/
inductive Addr where
  | zero
  | v4 (a b c d : Nat)
  | v6 (groups : List Nat) (zone : GoString)
  deriving DecidableEq, Repr

/-- Go `netip.Addr.AsSlice`: `nil` for the zero value, 4 bytes for IPv4, 16 for
IPv6 (the zone is dropped). -/
def Addr.AsSlice : Addr → Option (List Nat)
  | .zero => none
  | .v4 a b c d => some [a, b, c, d]
  | .v6 groups _ => some (groups.flatMap fun g => [g / 256, g % 256])

end netip

namespace pan

/-- The routing scope of a PathAddress (`pan.IA`): ISD and AS numbers. -/
structure IA where
  isd : Nat
  as : Nat
  deriving DecidableEq, Repr

/-- The type `pan.UDPAddr`; the package reads its fields `IP` (a `netip.Addr`)
and `Port` (a `uint16`). -/
structure UDPAddr where
  IA : IA
  IP : netip.Addr
  Port : Nat
  deriving DecidableEq, Repr

end pan

/-- The two functions of the PAN library the address helpers call.  The library
is not part of the sources, so they are parameters. -/
structure PanLib where
  /-- The function `pan.ParseUDPAddr`; the package looks at the value only when
  the error is `nil`. -/
  ParseUDPAddr : GoString → Except Error pan.UDPAddr
  /-- The function `pan.SplitHostPort`, with its full result triple. -/
  SplitHostPort : GoString → HostPortErr

namespace scion

/-- The constant `Network`. -/
def Network : String := "scion"

/-- `IsAddress`: `pan.ParseUDPAddr(addr)` returned a nil error. -/
def IsAddress (lib : PanLib) (addr : GoString) : Bool :=
  match lib.ParseUDPAddr addr with
  | .ok _ => true
  | .error _ => false

/-- `SplitHostPort`: the classic splitter first, the PAN splitter on failure. -/
def SplitHostPort (lib : PanLib) (hostport : GoString) : HostPortErr :=
  let r := net.SplitHostPort hostport
  if r.err = none then
    ⟨r.host, r.port, none⟩
  else
    lib.SplitHostPort hostport

/-- `isHost`: the host has a `:` or a `,` and parses with the dummy port `:0`. -/
def isHost (lib : PanLib) (host : GoString) : Bool :=
  if strings.Contains host ":".toList then
    match lib.ParseUDPAddr (host ++ ":0".toList) with
    | .ok _ => true
    | .error _ => false
  else if strings.Contains host ",".toList then
    match lib.ParseUDPAddr (host ++ ":0".toList) with
    | .ok _ => true
    | .error _ => false
  else
    false

/-- `JoinHostPort`: plain concatenation for a SCION host, `net.JoinHostPort`
otherwise. -/
def JoinHostPort (lib : PanLib) (host port : GoString) : GoString :=
  if isHost lib host then
    host ++ ":".toList ++ port
  else
    net.JoinHostPort host port

/-- Go result triple `(net.IP, uint16, error)`; a `nil` IP is `none`. -/
structure IPPortErr where
  ip : Option (List Nat)
  port : Nat
  err : Option Error
  deriving DecidableEq, Repr

/-- `ExtractIPPort`: the IP and port of the parsed address, the scope dropped. -/
def ExtractIPPort (lib : PanLib) (address : GoString) : IPPortErr :=
  match lib.ParseUDPAddr address with
  | .error err => ⟨none, 0, some err⟩
  | .ok udp => ⟨udp.IP.AsSlice, udp.Port, none⟩

end scion

/-! ## `Dial` and its collaborators -/

namespace context

/-- Go `context.Context`, as far as `Dial` and its collaborators can observe it:
`Err()` (`none` while the context is not done) and `Deadline()`. -/
structure Context where
  err : Option Error
  deadline : Option Int
  deriving DecidableEq, Repr

/-- Go `context.WithTimeout(parent, timeout)` called at time `now`: the child of
`WithDeadline(parent, now + timeout)`.  A parent deadline that is sooner keeps
the parent state; a done parent makes the child done with the same error; a
deadline that has passed makes the child done with `DeadlineExceeded`. -/
def WithTimeout (now : Int) (parent : Context) (timeout : Int) : Context :=
  let d := now + timeout
  let timer : Context :=
    ⟨if parent.err.isSome then parent.err
      else if d - now ≤ 0 then some Error.deadlineExceeded else none, some d⟩
  match parent.deadline with
  | some cur => if cur < d then parent else timer
  | none => timer

end context

namespace tls

/-- The fields of Go `tls.Config` that `Dial` sets. -/
structure Config where
  InsecureSkipVerify : Bool
  NextProtos : List String
  deriving DecidableEq, Repr

end tls

/-- A QUIC session handed out by `pan.DialQUIC`. -/
structure Session where
  id : Nat
  deriving DecidableEq, Repr

/-- The `net.Conn` that `quicutil.NewSingleStream` builds on a session. -/
structure Conn where
  id : Nat
  deriving DecidableEq, Repr

/-- The network collaborators of `Dial`; none of them is part of the sources.
Each field gives the outcome of one call from its arguments. -/
structure Collab where
  /-- The constant `quicutil.SingleStreamProto`. -/
  SingleStreamProto : String
  /-- The function `pan.ResolveUDPAddr(ctx, address)`. -/
  ResolveUDPAddr : context.Context → GoString → Except Error pan.UDPAddr
  /-- The function `pan.DialQUIC(ctx, netip.AddrPort{}, remote, nil, nil, "",
  tlsCfg, nil)`; only `ctx`, `remote` and `tlsCfg` vary. -/
  DialQUIC : context.Context → pan.UDPAddr → tls.Config → Except Error Session
  /-- The function `quicutil.NewSingleStream(session)`. -/
  NewSingleStream : Session → Except Error Conn

/-- A call `Dial` makes on a collaborator. -/
inductive Event where
  | resolve (ctx : context.Context) (address : GoString)
  | dialQUIC (ctx : context.Context) (remote : pan.UDPAddr) (cfg : tls.Config)
  | newSingleStream (session : Session)
  | closeWithError (session : Session) (code : Nat) (msg : String)
  | cancel
  deriving DecidableEq, Repr

/-- The state `Dial` acts on: the calls made so far, in order, and the sessions
the transport holds open. -/
structure World where
  log : List Event
  sessions : List Session
  deriving DecidableEq, Repr

namespace World

/-- Call `pan.ResolveUDPAddr`. -/
def resolve (c : Collab) (ctx : context.Context) (address : GoString) (w : World) :
    Except Error pan.UDPAddr × World :=
  (c.ResolveUDPAddr ctx address, ⟨w.log ++ [Event.resolve ctx address], w.sessions⟩)

/-- Call `pan.DialQUIC`; a session that is returned is open from then on. -/
def dialQUIC (c : Collab) (ctx : context.Context) (remote : pan.UDPAddr) (cfg : tls.Config)
    (w : World) : Except Error Session × World :=
  match c.DialQUIC ctx remote cfg with
  | .ok session =>
    (.ok session, ⟨w.log ++ [Event.dialQUIC ctx remote cfg], session :: w.sessions⟩)
  | .error err => (.error err, ⟨w.log ++ [Event.dialQUIC ctx remote cfg], w.sessions⟩)

/-- Call `quicutil.NewSingleStream`. -/
def newSingleStream (c : Collab) (session : Session) (w : World) :
    Except Error Conn × World :=
  (c.NewSingleStream session, ⟨w.log ++ [Event.newSingleStream session], w.sessions⟩)

/-- Call `session.CloseWithError(code, msg)`: the session is open no more. -/
def closeWithError (session : Session) (code : Nat) (msg : String) (w : World) : World :=
  ⟨w.log ++ [Event.closeWithError session code msg], w.sessions.filter fun s => s ≠ session⟩

/-- Run the deferred `cancel()`. -/
def cancel (w : World) : World :=
  ⟨w.log ++ [Event.cancel], w.sessions⟩

end World

/-- Go result pair `(net.Conn, error)` of `Dial`. -/
structure ConnErr where
  conn : Option Conn
  err : Option Error
  deriving DecidableEq, Repr

namespace scion

/-- `Dial`: derive the context, resolve, dial the session, wrap it in a single
stream; the session is closed with code `0x1` when the wrapping fails, and the
deferred `cancel()` runs last on every path. -/
def Dial (c : Collab) (now : Int) (ctx : context.Context) (address : GoString)
    (timeout : Int) (w : World) : ConnErr × World :=
  let ctx := context.WithTimeout now ctx timeout
  match World.resolve c ctx address w with
  | (.error err, w) => (⟨none, some err⟩, w.cancel)
  | (.ok remote, w) =>
    let tlsCfg : tls.Config := ⟨true, [c.SingleStreamProto]⟩
    match World.dialQUIC c ctx remote tlsCfg w with
    | (.error err, w) => (⟨none, some err⟩, w.cancel)
    | (.ok session, w) =>
      match World.newSingleStream c session w with
      | (.error err, w) =>
        let w := World.closeWithError session 0x1 "singlestream init failed" w
        (⟨none, some err⟩, w.cancel)
      | (.ok ss, w) => (⟨some ss, none⟩, w.cancel)

end scion

/-! ## The PAN library, modelled from the spec

`pan.ParseUDPAddr` and `pan.SplitHostPort` belong to the PAN library
(github.com/netsec-ethz/scion-apps/pkg/pan), which is not part of the sources.
The claims on what these two functions accept are settled on the model below,
written from the address format of the spec; it also gives the concrete library
of the examples.  The claims on the package itself hold for every `PanLib`. -/

namespace panModel

open bytealg

/-- Modelled from the spec: the decimal digits. -/
def decDigits : List Char := "0123456789".toList

/-- Modelled from the spec: the hexadecimal digits. -/
def hexDigits : List Char := "0123456789abcdefABCDEF".toList

/-- Modelled from the spec: value of a decimal digit. -/
def decVal (c : Char) : Nat := decDigits.indexOf c

/-- Modelled from the spec: value of a hexadecimal digit, either case. -/
def hexVal (c : Char) : Nat :=
  let i := hexDigits.indexOf c
  if i < 16 then i else i - 6

/-- Modelled from the spec: a non-empty run of decimal digits, as a number. -/
def parseDec (s : GoString) : Option Nat :=
  if s ≠ [] ∧ s.all (fun c => decDigits.contains c) = true then
    some (s.foldl (fun n c => 10 * n + decVal c) 0)
  else
    none

/-- Modelled from the spec: a non-empty run of hexadecimal digits, as a number.
-/
def parseHex (s : GoString) : Option Nat :=
  if s ≠ [] ∧ s.all (fun c => hexDigits.contains c) = true then
    some (s.foldl (fun n c => 16 * n + hexVal c) 0)
  else
    none

/-- Modelled from the spec: the text before and after the first `sep` of a
string, like Go `strings.Cut`. -/
def cut (sep : Char) : GoString → Option (GoString × GoString)
  | [] => none
  | x :: xs =>
    if x = sep then
      some ([], xs)
    else
      match cut sep xs with
      | some (a, b) => some (x :: a, b)
      | none => none

/-- Modelled from the spec: the text before and after the last `sep` of a
string. -/
def cutLast (sep : Char) : GoString → Option (GoString × GoString)
  | [] => none
  | x :: xs =>
    match cutLast sep xs with
    | some (a, b) => some (x :: a, b)
    | none => if x = sep then some ([], xs) else none

/-- Modelled from the spec: the fields of `s` between the separators `sep`. -/
def splitOn (sep : Char) : GoString → List GoString
  | [] => [[]]
  | x :: xs =>
    if x = sep then
      [] :: splitOn sep xs
    else
      match splitOn sep xs with
      | [] => [[x]]
      | g :: gs => (x :: g) :: gs

/-- Modelled from the spec: a group of one to four hexadecimal digits. -/
def parseGroup (g : GoString) : Option Nat :=
  if g.length ≤ 4 then parseHex g else none

/-- Modelled from the spec: the AS number of a routing scope: decimal below
`2^32`, or three groups of hexadecimal digits separated by colons. -/
def parseAS (s : GoString) : Option Nat :=
  if s.contains ':' then
    if s.all (fun c => hexDigits.contains c || c == ':') = true then
      match splitOn ':' s with
      | [a, b, c] =>
        match parseGroup a, parseGroup b, parseGroup c with
        | some x, some y, some z => some (x * 2 ^ 32 + y * 2 ^ 16 + z)
        | _, _, _ => none
      | _ => none
    else
      none
  else
    match parseDec s with
    | some n => if n < 2 ^ 32 then some n else none
    | none => none

/-- Modelled from the spec: the routing scope `ISD-AS`: a decimal ISD below
`2^16`, a dash, the AS. -/
def parseIA (s : GoString) : Option pan.IA :=
  match cut '-' s with
  | none => none
  | some (isd, as) =>
    match parseDec isd, parseAS as with
    | some i, some a => if i < 2 ^ 16 then some ⟨i, a⟩ else none
    | _, _ => none

/-- Modelled from the spec: one field of a dotted quad: at most three digits, no
leading zero, at most 255. -/
def parseOctet (g : GoString) : Option Nat :=
  if g.length ≤ 3 ∧ (g.length = 1 ∨ g.head? ≠ some '0') then
    match parseDec g with
    | some n => if n ≤ 255 then some n else none
    | none => none
  else
    none

/-- Modelled from the spec: an IPv4 literal: four octets separated by dots. -/
def parseIPv4 (s : GoString) : Option netip.Addr :=
  if s.all (fun c => decDigits.contains c || c == '.') = true then
    match splitOn '.' s with
    | [a, b, c, d] =>
      match parseOctet a, parseOctet b, parseOctet c, parseOctet d with
      | some w, some x, some y, some z => some (netip.Addr.v4 w x y z)
      | _, _, _, _ => none
    | _ => none
  else
    none

/-- Modelled from the spec: the text before and after the first `::` of `s`. -/
def splitDoubleColon : GoString → Option (GoString × GoString)
  | [] => none
  | x :: xs =>
    if x = ':' ∧ xs.head? = some ':' then
      some ([], xs.drop 1)
    else
      match splitDoubleColon xs with
      | some (a, b) => some (x :: a, b)
      | none => none

/-- Modelled from the spec: the groups of one side of a `::`; an empty side has
none. -/
def parseGroups (s : GoString) : Option (List Nat) :=
  if s = [] then some [] else (splitOn ':' s).mapM parseGroup

/-- Modelled from the spec: an IPv6 literal: eight groups of hexadecimal digits
separated by colons, or fewer with one `::` standing for the missing zero
groups. -/
def parseIPv6 (s : GoString) : Option netip.Addr :=
  if s.all (fun c => hexDigits.contains c || c == ':') = true then
    match splitDoubleColon s with
    | some (a, b) =>
      match parseGroups a, parseGroups b with
      | some l, some r =>
        if l.length + r.length ≤ 7 then
          some (netip.Addr.v6 (l ++ List.replicate (8 - (l.length + r.length)) 0 ++ r) [])
        else
          none
      | _, _ => none
    | none =>
      match (splitOn ':' s).mapM parseGroup with
      | some gs => if gs.length = 8 then some (netip.Addr.v6 gs []) else none
      | none => none
  else
    none

/-- Modelled from the spec: an IP literal, IPv4 or IPv6. -/
def parseIP (s : GoString) : Option netip.Addr :=
  match parseIPv4 s with
  | some a => some a
  | none => parseIPv6 s

/-- Modelled from the spec: a port: decimal digits, at most 65535. -/
def parsePort (s : GoString) : Option Nat :=
  match parseDec s with
  | some n => if n < 2 ^ 16 then some n else none
  | none => none

/-- Modelled from the spec: the part of a PathAddress after the comma:
`[ip]:port` with an IPv4 or IPv6 literal between the brackets, or `ip:port`
without brackets, cut at the last colon. The spec has the IPv6 literal
optionally bracketed, so the unbracketed literal is IPv4 or IPv6 too. -/
def parseHostPort (rest : GoString) : Option (netip.Addr × Nat) :=
  if rest.head? = some '[' then
    match cut ']' (rest.drop 1) with
    | none => none
    | some (ip, tail) =>
      if tail.head? = some ':' then
        match parseIP ip, parsePort (tail.drop 1) with
        | some a, some p => some (a, p)
        | _, _ => none
      else
        none
  else
    match cutLast ':' rest with
    | none => none
    | some (ip, port) =>
      match parseIP ip, parsePort port with
      | some a, some p => some (a, p)
      | _, _ => none

/-- Modelled from the spec: `pan.ParseUDPAddr` of the PAN library
(github.com/netsec-ethz/scion-apps/pkg/pan), which is not part of the sources.
The spec gives the address format as `<routing-scope>,[<IP>]:<port>`, IPv4 or
bracketed IPv6, with the IPv6 literal optionally bracketed, the routing scope
being the `ISD-AS` identifier (as in `1-ff00:0:110`); a string of that format
parses to its scope, IP and port, and any other string is a parse error. -/
def ParseUDPAddr (s : GoString) : Except Error pan.UDPAddr :=
  match cut ',' s with
  | none => .error (.parseError "no routing scope")
  | some (scope, rest) =>
    match parseIA scope with
    | none => .error (.parseError "invalid routing scope")
    | some ia =>
      match parseHostPort rest with
      | none => .error (.parseError "invalid host or port")
      | some (ip, port) => .ok ⟨ia, ip, port⟩

/-- Modelled from the spec: a host text between brackets: `[`, a non-empty text
without brackets, `]`. -/
def isBracketed (h : GoString) : Bool :=
  h.head? = some '[' &&
    match cut ']' (h.drop 1) with
    | none => false
    | some (inner, tail) => !inner.isEmpty && tail.isEmpty && !inner.contains '['

/-- Modelled from the spec: a host text without brackets: non-empty, no colon,
no bracket. -/
def isBare (h : GoString) : Bool :=
  !h.isEmpty && h.all fun c => c != ':' && c != '[' && c != ']'

/-- Modelled from the spec: the host part of a PathAddress as the splitter sees
it: a routing scope, a comma, and a host text with or without brackets. -/
def isScopedHost (host : GoString) : Bool :=
  match cut ',' host with
  | none => false
  | some (scope, h) => (parseIA scope).isSome && (isBare h || isBracketed h)

/-- Modelled from the spec: `pan.SplitHostPort` of the PAN library, which is not
part of the sources. The spec calls it a PathAddress-aware split tolerant of the
scope-and-comma/bracket syntax: it cuts `scope,[ip]:port` or `scope,ip:port` at
the last colon, the port being a non-empty run of digits, and fails on any other
string. -/
def SplitHostPort (s : GoString) : HostPortErr :=
  match cutLast ':' s with
  | none => ⟨[], [], some (.parseError "invalid address")⟩
  | some (host, port) =>
    if isScopedHost host && (parseDec port).isSome then
      ⟨host, port, none⟩
    else
      ⟨[], [], some (.parseError "invalid address")⟩

end panModel

/-- Modelled from the spec: the PAN library, made of the two modelled functions. -/
def panModel.lib : PanLib := ⟨panModel.ParseUDPAddr, panModel.SplitHostPort⟩

/-! ## The spec's rule for joining -/

/-- The rule of the spec for `joinHostPort`: the host is a PathAddress host when
it parses as one with a dummy port; then the parts are concatenated, otherwise
the classic joining is used.  There is no look at the characters of the host. -/
def joinRule (lib : PanLib) (host port : GoString) : GoString :=
  if scion.IsAddress lib (host ++ ":0".toList) = true then
    host ++ ":".toList ++ port
  else
    net.JoinHostPort host port

/-! ## Predicates of the claims and example collaborators -/

/-- The characters a routing scope is written with. -/
def scopeChars : List Char := "0123456789abcdefABCDEF:-".toList

/-- The characters an IP literal is written with. -/
def ipChars : List Char := "0123456789abcdefABCDEF:.".toList

/-- A string lacks a routing-scope prefix when no text before one of its commas
is a routing scope `ISD-AS`. -/
def LacksScope (s : GoString) : Prop :=
  ∀ scope rest, s = scope ++ ",".toList ++ rest → panModel.parseIA scope = none

/-- The groups on one side of an IPv6 text, counted: groups of hexadecimal
digits separated by colons, the last of which may be a dotted quad (two groups)
when `allowV4` holds; an empty side has none. -/
def ipv6Side (allowV4 : Bool) (s : GoString) : Option Nat :=
  if s = [] then
    some 0
  else
    match (panModel.splitOn ':' s).getLast? with
    | none => none
    | some last =>
      if ((panModel.splitOn ':' s).dropLast.all fun g => (panModel.parseGroup g).isSome)
          = true then
        if (panModel.parseGroup last).isSome = true then
          some (panModel.splitOn ':' s).length
        else if allowV4 = true ∧ (panModel.parseIPv4 last).isSome = true then
          some ((panModel.splitOn ':' s).length + 1)
        else
          none
      else
        none

/-- The text of an IPv6 address: eight groups, or fewer with one `::`, the last
two groups possibly written as a dotted quad (`::ffff:1.2.3.4`). -/
def isIPv6Text (s : GoString) : Bool :=
  s.all (fun c => ipChars.contains c) &&
    match panModel.splitDoubleColon s with
    | some (a, b) =>
      match ipv6Side false a, ipv6Side true b with
      | some l, some r => decide (l + r ≤ 7)
      | _, _ => false
    | none => ipv6Side true s == some 8

/-- An IPv6 literal as a classic host: the text of an IPv6 address, then
possibly `%` and a zone (`fe80::1%eth0`); the zone is not empty and has no
bracket. -/
def isIPv6Literal (host : GoString) : Bool :=
  match panModel.cut '%' host with
  | none => isIPv6Text host
  | some (addr, zone) =>
    isIPv6Text addr && !zone.isEmpty && zone.all fun c => c != '[' && c != ']'

/-- A classic host: a host name (letters, digits, dashes and dots), an IPv4
literal or an IPv6 literal, the latter with or without a zone and with or
without an embedded IPv4 address. -/
def IsClassicHost (host : GoString) : Prop :=
  (host.all fun c => c.isAlphanum || c == '-' || c == '.') = true ∨
    (panModel.parseIPv4 host).isSome = true ∨ isIPv6Literal host = true

/-- A PathAddress host: `scope,[ip]` or `scope,ip`, the IP being an IPv4 or an
IPv6 literal in both forms. -/
def IsPathHost (host : GoString) : Prop :=
  ∃ scope ip, (panModel.parseIA scope).isSome = true ∧ (panModel.parseIP ip).isSome = true ∧
    (host = scope ++ ",[".toList ++ ip ++ "]".toList ∨ host = scope ++ ",".toList ++ ip)

/-- A PathAddress host other than `scope,ip` with an unbracketed IPv6 literal:
`scope,[ip]` with an IPv4 or IPv6 literal, or `scope,ip` with an IPv4 literal. -/
def IsSplittablePathHost (host : GoString) : Prop :=
  ∃ scope ip, (panModel.parseIA scope).isSome = true ∧
    ((panModel.parseIP ip).isSome = true ∧ host = scope ++ ",[".toList ++ ip ++ "]".toList ∨
      (panModel.parseIPv4 ip).isSome = true ∧ host = scope ++ ",".toList ++ ip)

/-- Collaborators for the examples: the resolver and the transport report the
error of a context that is done; otherwise the resolver parses the address and
the transport hands out session 1; stream initialisation succeeds or fails as
`streamOk` says. -/
def exampleCollab (streamOk : Bool) : Collab where
  SingleStreamProto := "qs"
  ResolveUDPAddr ctx address :=
    match ctx.err with
    | some err => .error err
    | none => panModel.ParseUDPAddr address
  DialQUIC ctx _ _ :=
    match ctx.err with
    | some err => .error err
    | none => .ok ⟨1⟩
  NewSingleStream session := if streamOk then .ok ⟨session.id⟩ else .error (.other 2)

/-- The step of `Dial` a call belongs to: 0 resolve, 1 session dial, 2 stream
initialisation; cleanup calls belong to none. -/
def Event.step : Event → Option Nat
  | .resolve _ _ => some 0
  | .dialQUIC _ _ _ => some 1
  | .newSingleStream _ => some 2
  | .closeWithError _ _ _ => none
  | .cancel => none

/-! ## Lemmas on the string helpers -/

theorem IndexByteString_eq_none {s : GoString} {c : Char} (h : c ∉ s) :
    bytealg.IndexByteString s c = none := by
  induction s with
  | nil => rfl
  | cons x xs ih =>
    have hx : x ≠ c := fun e => h (by simp [e])
    have hxs : c ∉ xs := fun m => h (List.mem_cons_of_mem _ m)
    simp [bytealg.IndexByteString, hx, ih hxs]

theorem IndexByteString_isSome {s : GoString} {c : Char} (h : c ∈ s) :
    (bytealg.IndexByteString s c).isSome = true := by
  induction s with
  | nil => simp at h
  | cons x xs ih =>
    by_cases hx : x = c
    · simp [bytealg.IndexByteString, hx]
    · have hxs : c ∈ xs := by
        rcases List.mem_cons.mp h with e | m
        · exact absurd e.symm hx
        · exact m
      have := ih hxs
      simp only [bytealg.IndexByteString, hx, if_false]
      cases hi : bytealg.IndexByteString xs c with
      | none => simp [hi] at this
      | some i => simp

theorem Contains_singleton (s : GoString) (c : Char) :
    strings.Contains s [c] = decide (c ∈ s) := by
  induction s with
  | nil => simp [strings.Contains, List.isPrefixOf]
  | cons x xs ih =>
    simp only [strings.Contains] at ih
    simp only [strings.Contains, List.tails, List.any_cons, ih]
    by_cases hx : c = x
    · simp [List.isPrefixOf, hx]
    · simp [List.isPrefixOf, hx]

theorem isHost_eq (lib : PanLib) (host : GoString) :
    scion.isHost lib host =
      ((decide (':' ∈ host) || decide (',' ∈ host)) &&
        scion.IsAddress lib (host ++ ":0".toList)) := by
  have h1 : (":".toList : GoString) = [':'] := rfl
  have h2 : (",".toList : GoString) = [','] := rfl
  simp only [scion.isHost, scion.IsAddress, h1, h2, Contains_singleton]
  by_cases hc : ':' ∈ host <;> by_cases hm : ',' ∈ host <;>
    cases lib.ParseUDPAddr (host ++ ":0".toList) <;> simp [hc, hm]

theorem JoinHostPort_no_colon {host : GoString} (port : GoString) (h : ':' ∉ host) :
    net.JoinHostPort host port = host ++ ":".toList ++ port := by
  simp [net.JoinHostPort, IndexByteString_eq_none h]

/-! ## Claims on the address helpers, for every PAN library -/

/-- C1: when the classic `net.SplitHostPort` succeeds on `s` with `(h, p)`,
`SplitHostPort` returns exactly `(h, p)` and a nil error, whatever the PAN
splitter does on `s`. -/
theorem SplitHostPort_classic (lib : PanLib) (s h p : GoString)
    (hnet : net.SplitHostPort s = ⟨h, p, none⟩) :
    scion.SplitHostPort lib s = ⟨h, p, none⟩ := by
  simp [scion.SplitHostPort, hnet]

/-- C1 at `127.0.0.1:8333`: host `127.0.0.1`, port `8333`. -/
theorem SplitHostPort_classic_witness :
    net.SplitHostPort "127.0.0.1:8333".toList = ⟨"127.0.0.1".toList, "8333".toList, none⟩ ∧
      scion.SplitHostPort panModel.lib "127.0.0.1:8333".toList
        = ⟨"127.0.0.1".toList, "8333".toList, none⟩ :=
  ⟨by decide, SplitHostPort_classic panModel.lib _ _ _ (by decide)⟩

/-- C9: `SplitHostPort` returns an error exactly when both the classic splitter
and the PAN splitter return one; and whenever the classic splitter fails, the
result is the PAN splitter's whole triple. -/
theorem SplitHostPort_error_iff (lib : PanLib) (s : GoString) :
    ((scion.SplitHostPort lib s).err ≠ none ↔
        (net.SplitHostPort s).err ≠ none ∧ (lib.SplitHostPort s).err ≠ none) ∧
      ((net.SplitHostPort s).err ≠ none →
        scion.SplitHostPort lib s = lib.SplitHostPort s) := by
  by_cases h : (net.SplitHostPort s).err = none
  · simp [scion.SplitHostPort, h]
  · simp [scion.SplitHostPort, h]

/-- C9 at a PathAddress string: the classic splitter fails on it and the result
is the PAN splitter's. -/
theorem SplitHostPort_error_iff_witness :
    (net.SplitHostPort "1-ff00:0:110,[127.0.0.1]:30041".toList).err ≠ none ∧
      scion.SplitHostPort panModel.lib "1-ff00:0:110,[127.0.0.1]:30041".toList
        = panModel.lib.SplitHostPort "1-ff00:0:110,[127.0.0.1]:30041".toList :=
  ⟨by decide,
    (SplitHostPort_error_iff panModel.lib "1-ff00:0:110,[127.0.0.1]:30041".toList).2
      (by decide)⟩

/-- C4: `JoinHostPort` follows the rule of the spec: plain concatenation when the
host with the dummy port `:0` parses as a PathAddress, the classic
`net.JoinHostPort` in every other case; the check for `:` or `,` in `isHost`
changes no result. -/
theorem JoinHostPort_eq_joinRule (lib : PanLib) (host port : GoString) :
    scion.JoinHostPort lib host port = joinRule lib host port ∧
      (scion.IsAddress lib (host ++ ":0".toList) = true →
        scion.JoinHostPort lib host port = host ++ ":".toList ++ port) ∧
      (scion.IsAddress lib (host ++ ":0".toList) = false →
        scion.JoinHostPort lib host port = net.JoinHostPort host port) := by
  have key : scion.JoinHostPort lib host port = joinRule lib host port := by
    simp only [scion.JoinHostPort, joinRule, isHost_eq]
    by_cases hp : scion.IsAddress lib (host ++ ":0".toList) = true
    · by_cases hc : ':' ∈ host
      · simp [hp, hc]
      · by_cases hm : ',' ∈ host
        · simp [hp, hm]
        · simp [hp, hc, hm, JoinHostPort_no_colon port hc]
    · rw [if_neg (fun h => hp (Bool.and_eq_true _ _ ▸ h).2), if_neg hp]
  refine ⟨key, ?_, ?_⟩
  · intro hp
    rw [key, joinRule, if_pos hp]
  · intro hp
    rw [key, joinRule, if_neg (by rw [hp]; decide)]

/-- C4 at a PathAddress host and at an IPv6 literal. -/
theorem JoinHostPort_eq_joinRule_witness :
    scion.JoinHostPort panModel.lib "1-ff00:0:110,[127.0.0.1]".toList "30041".toList
        = "1-ff00:0:110,[127.0.0.1]:30041".toList ∧
      scion.JoinHostPort panModel.lib "::1".toList "8333".toList = "[::1]:8333".toList :=
  ⟨(JoinHostPort_eq_joinRule panModel.lib "1-ff00:0:110,[127.0.0.1]".toList
      "30041".toList).2.1 (by decide),
    ((JoinHostPort_eq_joinRule panModel.lib "::1".toList "8333".toList).2.2
      (by decide)).trans (by decide)⟩

/-- When `JoinHostPort` gives the plain concatenation: the host with the dummy
port parses as a PathAddress, or the host has no colon (then `net.JoinHostPort`
adds no brackets either, so both branches of the rule give the same string). -/
theorem JoinHostPort_plain_iff (lib : PanLib) (host port : GoString) :
    scion.JoinHostPort lib host port = host ++ ":".toList ++ port ↔
      scion.IsAddress lib (host ++ ":0".toList) = true ∨ ':' ∉ host := by
  rw [scion.JoinHostPort, isHost_eq]
  by_cases hp : scion.IsAddress lib (host ++ ":0".toList) = true
  · by_cases hc : ':' ∈ host
    · rw [hp]
      simp [hc]
    · by_cases hm : ',' ∈ host
      · rw [hp]
        simp [hm]
      · rw [hp]
        simp [hc, hm, JoinHostPort_no_colon port hc]
  · have hf : scion.IsAddress lib (host ++ ":0".toList) = false := by
      simpa using hp
    rw [hf]
    by_cases hc : ':' ∈ host
    · have hne : net.JoinHostPort host port ≠ host ++ ':' :: port := by
        intro e
        have hl := congrArg List.length e
        simp [net.JoinHostPort, IndexByteString_isSome hc] at hl
        omega
      simp [hne, hc]
    · simp [hc, JoinHostPort_no_colon port hc]

/-- C5: `ExtractIPPort` succeeds exactly when the string parses, that is when
`IsAddress` holds; it then returns the IP and port of the parsed address, so
two strings whose parses agree on IP and port give the same result whatever
their routing scopes; on failure it returns a nil IP, port 0 and the parser's
error. -/
theorem ExtractIPPort_spec (lib : PanLib) (s : GoString) :
    ((scion.ExtractIPPort lib s).err = none ↔ scion.IsAddress lib s = true) ∧
      (∀ udp, lib.ParseUDPAddr s = .ok udp →
        scion.ExtractIPPort lib s = ⟨udp.IP.AsSlice, udp.Port, none⟩) ∧
      (∀ t ia ia2 ip port, lib.ParseUDPAddr s = .ok ⟨ia, ip, port⟩ →
        lib.ParseUDPAddr t = .ok ⟨ia2, ip, port⟩ →
        scion.ExtractIPPort lib s = scion.ExtractIPPort lib t) ∧
      (∀ err, lib.ParseUDPAddr s = .error err →
        scion.ExtractIPPort lib s = ⟨none, 0, some err⟩) := by
  refine ⟨?_, ?_, ?_, ?_⟩
  · cases h : lib.ParseUDPAddr s <;> simp [scion.ExtractIPPort, scion.IsAddress, h]
  · intro udp h
    simp [scion.ExtractIPPort, h]
  · intro t ia ia2 ip port h1 h2
    simp [scion.ExtractIPPort, h1, h2]
  · intro err h
    simp [scion.ExtractIPPort, h]

/-- C5 at `1-ff00:0:110,[127.0.0.1]:30041`: IP 127.0.0.1 and port 30041, the same
as for another routing scope. -/
theorem ExtractIPPort_spec_witness :
    scion.ExtractIPPort panModel.lib "1-ff00:0:110,[127.0.0.1]:30041".toList
        = ⟨some [127, 0, 0, 1], 30041, none⟩ ∧
      scion.ExtractIPPort panModel.lib "1-ff00:0:110,[127.0.0.1]:30041".toList
        = scion.ExtractIPPort panModel.lib "2-64512,[127.0.0.1]:30041".toList :=
  ⟨(ExtractIPPort_spec panModel.lib "1-ff00:0:110,[127.0.0.1]:30041".toList).2.1
      ⟨⟨1, 0xff00 * 2 ^ 32 + 0x110⟩, .v4 127 0 0 1, 30041⟩ (by decide),
    (ExtractIPPort_spec panModel.lib "1-ff00:0:110,[127.0.0.1]:30041".toList).2.2.1
      "2-64512,[127.0.0.1]:30041".toList ⟨1, 0xff00 * 2 ^ 32 + 0x110⟩ ⟨2, 64512⟩
      (.v4 127 0 0 1) 30041 (by decide) (by decide)⟩

/-! ## Claims on `Dial` -/

theorem WithTimeout_err_of_done (now : Int) (ctx : context.Context) (timeout : Int)
    (h : ctx.err ≠ none) : (context.WithTimeout now ctx timeout).err = ctx.err := by
  have hs : ctx.err.isSome = true := Option.isSome_iff_ne_none.mpr h
  unfold context.WithTimeout
  cases hd : ctx.deadline with
  | none => simp [hs]
  | some cur =>
    by_cases hlt : cur < now + timeout
    · simp [hlt]
    · simp [hlt, hs]

theorem Dial_of_resolve_error (c : Collab) (now : Int) (ctx : context.Context)
    (address : GoString) (timeout : Int) (w : World) (err : Error)
    (hres : c.ResolveUDPAddr (context.WithTimeout now ctx timeout) address = .error err) :
    scion.Dial c now ctx address timeout w = (⟨none, some err⟩,
      ⟨w.log ++ [Event.resolve (context.WithTimeout now ctx timeout) address, Event.cancel],
        w.sessions⟩) := by
  simp [scion.Dial, World.resolve, World.cancel, hres]

theorem Dial_of_dial_error (c : Collab) (now : Int) (ctx : context.Context)
    (address : GoString) (timeout : Int) (w : World) (remote : pan.UDPAddr) (err : Error)
    (hres : c.ResolveUDPAddr (context.WithTimeout now ctx timeout) address = .ok remote)
    (hdial : c.DialQUIC (context.WithTimeout now ctx timeout) remote
      ⟨true, [c.SingleStreamProto]⟩ = .error err) :
    scion.Dial c now ctx address timeout w = (⟨none, some err⟩,
      ⟨w.log ++ [Event.resolve (context.WithTimeout now ctx timeout) address,
          Event.dialQUIC (context.WithTimeout now ctx timeout) remote
            ⟨true, [c.SingleStreamProto]⟩,
          Event.cancel],
        w.sessions⟩) := by
  simp [scion.Dial, World.resolve, World.dialQUIC, World.cancel, hres, hdial]

theorem Dial_of_stream_error (c : Collab) (now : Int) (ctx : context.Context)
    (address : GoString) (timeout : Int) (w : World) (remote : pan.UDPAddr)
    (session : Session) (err : Error)
    (hres : c.ResolveUDPAddr (context.WithTimeout now ctx timeout) address = .ok remote)
    (hdial : c.DialQUIC (context.WithTimeout now ctx timeout) remote
      ⟨true, [c.SingleStreamProto]⟩ = .ok session)
    (hss : c.NewSingleStream session = .error err) :
    scion.Dial c now ctx address timeout w = (⟨none, some err⟩,
      ⟨w.log ++ [Event.resolve (context.WithTimeout now ctx timeout) address,
          Event.dialQUIC (context.WithTimeout now ctx timeout) remote
            ⟨true, [c.SingleStreamProto]⟩,
          Event.newSingleStream session,
          Event.closeWithError session 0x1 "singlestream init failed",
          Event.cancel],
        w.sessions.filter fun s => s ≠ session⟩) := by
  simp [scion.Dial, World.resolve, World.dialQUIC, World.newSingleStream,
    World.closeWithError, World.cancel, hres, hdial, hss]

theorem Dial_of_success (c : Collab) (now : Int) (ctx : context.Context)
    (address : GoString) (timeout : Int) (w : World) (remote : pan.UDPAddr)
    (session : Session) (ss : Conn)
    (hres : c.ResolveUDPAddr (context.WithTimeout now ctx timeout) address = .ok remote)
    (hdial : c.DialQUIC (context.WithTimeout now ctx timeout) remote
      ⟨true, [c.SingleStreamProto]⟩ = .ok session)
    (hss : c.NewSingleStream session = .ok ss) :
    scion.Dial c now ctx address timeout w = (⟨some ss, none⟩,
      ⟨w.log ++ [Event.resolve (context.WithTimeout now ctx timeout) address,
          Event.dialQUIC (context.WithTimeout now ctx timeout) remote
            ⟨true, [c.SingleStreamProto]⟩,
          Event.newSingleStream session,
          Event.cancel],
        session :: w.sessions⟩) := by
  simp [scion.Dial, World.resolve, World.dialQUIC, World.newSingleStream,
    World.cancel, hres, hdial, hss]

/-- C7: when resolution and session establishment succeed and single-stream
initialisation fails, `Dial` closes the session with code `0x1` before it
returns, returns a nil connection with the initialisation error, and leaves
the session out of the open sessions of the transport; and whichever step
fails, every session open after a failed `Dial` was open before it. -/
theorem Dial_stream_failure_closes_session (c : Collab) (now : Int)
    (ctx : context.Context) (address : GoString) (timeout : Int) (w : World) :
    (∀ remote session err,
      c.ResolveUDPAddr (context.WithTimeout now ctx timeout) address = .ok remote →
      c.DialQUIC (context.WithTimeout now ctx timeout) remote
        ⟨true, [c.SingleStreamProto]⟩ = .ok session →
      c.NewSingleStream session = .error err →
      (scion.Dial c now ctx address timeout w).1 = ⟨none, some err⟩ ∧
        (scion.Dial c now ctx address timeout w).2.log = w.log ++
          [Event.resolve (context.WithTimeout now ctx timeout) address,
            Event.dialQUIC (context.WithTimeout now ctx timeout) remote
              ⟨true, [c.SingleStreamProto]⟩,
            Event.newSingleStream session,
            Event.closeWithError session 0x1 "singlestream init failed",
            Event.cancel] ∧
        session ∉ (scion.Dial c now ctx address timeout w).2.sessions ∧
        (scion.Dial c now ctx address timeout w).2.sessions
          = w.sessions.filter fun s => s ≠ session) ∧
      ((scion.Dial c now ctx address timeout w).1.err ≠ none →
        ∀ s ∈ (scion.Dial c now ctx address timeout w).2.sessions, s ∈ w.sessions) := by
  constructor
  · intro remote session err hres hdial hss
    rw [Dial_of_stream_error c now ctx address timeout w remote session err hres hdial hss]
    simp
  · intro hfail s hmem
    cases hr : c.ResolveUDPAddr (context.WithTimeout now ctx timeout) address with
    | error e =>
      rw [Dial_of_resolve_error c now ctx address timeout w e hr] at hmem
      exact hmem
    | ok remote =>
      cases hd : c.DialQUIC (context.WithTimeout now ctx timeout) remote
          ⟨true, [c.SingleStreamProto]⟩ with
      | error e =>
        rw [Dial_of_dial_error c now ctx address timeout w remote e hr hd] at hmem
        exact hmem
      | ok session =>
        cases hs : c.NewSingleStream session with
        | error e =>
          rw [Dial_of_stream_error c now ctx address timeout w remote session e hr hd hs]
            at hmem
          exact (List.mem_filter.mp hmem).1
        | ok ss =>
          rw [Dial_of_success c now ctx address timeout w remote session ss hr hd hs]
            at hfail
          exact absurd rfl hfail

/-- C7 with a stream initialisation that fails: session 1 is opened, closed
with code 1, and no session is open afterwards. -/
theorem Dial_stream_failure_closes_session_witness :
    (scion.Dial (exampleCollab false) 0 ⟨none, none⟩
        "1-ff00:0:110,[127.0.0.1]:30041".toList 5 ⟨[], []⟩).1 = ⟨none, some (.other 2)⟩ ∧
      Event.closeWithError ⟨1⟩ 1 "singlestream init failed" ∈
        (scion.Dial (exampleCollab false) 0 ⟨none, none⟩
          "1-ff00:0:110,[127.0.0.1]:30041".toList 5 ⟨[], []⟩).2.log ∧
      (scion.Dial (exampleCollab false) 0 ⟨none, none⟩
        "1-ff00:0:110,[127.0.0.1]:30041".toList 5 ⟨[], []⟩).2.sessions = [] := by
  have h := (Dial_stream_failure_closes_session (exampleCollab false) 0 ⟨none, none⟩
    "1-ff00:0:110,[127.0.0.1]:30041".toList 5 ⟨[], []⟩).1
    ⟨⟨1, 0xff00 * 2 ^ 32 + 0x110⟩, .v4 127 0 0 1, 30041⟩ ⟨1⟩ (.other 2)
    (by decide) (by decide) (by decide)
  refine ⟨h.1, ?_, ?_⟩
  · rw [h.2.1]; simp
  · rw [h.2.2.2]; rfl

/-- C8, as the code has it: `Dial` makes no check of the context itself.  With a
context that is already done, the derived context is done with the same error,
the first call of `Dial` is the resolver with that derived context, the
resolver is called once, and when it returns an error `Dial` returns a nil
connection with that error after the resolver call and the deferred `cancel()`
alone. -/
theorem Dial_done_ctx_resolves_first (c : Collab) (now : Int) (ctx : context.Context)
    (address : GoString) (timeout : Int) (w : World) (hdone : ctx.err ≠ none) :
    (context.WithTimeout now ctx timeout).err = ctx.err ∧
      ((scion.Dial c now ctx address timeout w).2.log.take (w.log.length + 1)
          = w.log ++ [Event.resolve (context.WithTimeout now ctx timeout) address] ∧
        (((scion.Dial c now ctx address timeout w).2.log.drop w.log.length).filterMap
          Event.step).count 0 = 1) ∧
      (∀ err, c.ResolveUDPAddr (context.WithTimeout now ctx timeout) address = .error err →
        (scion.Dial c now ctx address timeout w).1 = ⟨none, some err⟩ ∧
          (scion.Dial c now ctx address timeout w).2.log = w.log ++
            [Event.resolve (context.WithTimeout now ctx timeout) address, Event.cancel]) := by
  refine ⟨WithTimeout_err_of_done now ctx timeout hdone, ?_, ?_⟩
  · cases hr : c.ResolveUDPAddr (context.WithTimeout now ctx timeout) address with
    | error e =>
      rw [Dial_of_resolve_error c now ctx address timeout w e hr]
      simp [List.take_append_eq_append_take, Event.step]
    | ok remote =>
      cases hd : c.DialQUIC (context.WithTimeout now ctx timeout) remote
          ⟨true, [c.SingleStreamProto]⟩ with
      | error e =>
        rw [Dial_of_dial_error c now ctx address timeout w remote e hr hd]
        simp [List.take_append_eq_append_take, Event.step]
      | ok session =>
        cases hs : c.NewSingleStream session with
        | error e =>
          rw [Dial_of_stream_error c now ctx address timeout w remote session e hr hd hs]
          simp [List.take_append_eq_append_take, Event.step]
        | ok ss =>
          rw [Dial_of_success c now ctx address timeout w remote session ss hr hd hs]
          simp [List.take_append_eq_append_take, Event.step]
  · intro err h
    rw [Dial_of_resolve_error c now ctx address timeout w err h]
    exact ⟨rfl, rfl⟩

/-- C8 with a cancelled context: the resolver is called with the derived,
cancelled context and its error comes back. -/
theorem Dial_done_ctx_resolves_first_witness :
    (scion.Dial (exampleCollab true) 0 ⟨some .canceled, none⟩
        "1-ff00:0:110,[127.0.0.1]:30041".toList 5 ⟨[], []⟩).2.log.take 1
      = [Event.resolve ⟨some .canceled, some 5⟩ "1-ff00:0:110,[127.0.0.1]:30041".toList] :=
  (Dial_done_ctx_resolves_first (exampleCollab true) 0 ⟨some .canceled, none⟩
    "1-ff00:0:110,[127.0.0.1]:30041".toList 5 ⟨[], []⟩ (by decide)).2.1.1

/-- C8 fails as stated: called with an already cancelled context, `Dial` does
invoke the address resolver. -/
theorem Dial_done_ctx_invokes_resolver :
    Event.resolve ⟨some .canceled, some 5⟩ "1-ff00:0:110,[127.0.0.1]:30041".toList ∈
      (scion.Dial (exampleCollab true) 0 ⟨some .canceled, none⟩
        "1-ff00:0:110,[127.0.0.1]:30041".toList 5 ⟨[], []⟩).2.log := by
  decide

/-- C10: `Dial` calls resolve, session dial and single-stream initialisation at
most once each and in that order; it returns a connection and a nil error
exactly when all three succeed, and otherwise a nil connection with the error
of the first failing step as the collaborator gave it, no later step being
called. -/
theorem Dial_steps (c : Collab) (now : Int) (ctx : context.Context)
    (address : GoString) (timeout : Int) (w : World) :
    (((scion.Dial c now ctx address timeout w).2.log.drop w.log.length).filterMap
        Event.step <+: [0, 1, 2]) ∧
      (((scion.Dial c now ctx address timeout w).1.conn ≠ none ∧
          (scion.Dial c now ctx address timeout w).1.err = none) ↔
        ∃ remote session ss,
          c.ResolveUDPAddr (context.WithTimeout now ctx timeout) address = .ok remote ∧
          c.DialQUIC (context.WithTimeout now ctx timeout) remote
            ⟨true, [c.SingleStreamProto]⟩ = .ok session ∧
          c.NewSingleStream session = .ok ss) ∧
      (∀ err, c.ResolveUDPAddr (context.WithTimeout now ctx timeout) address = .error err →
        (scion.Dial c now ctx address timeout w).1 = ⟨none, some err⟩ ∧
          ((scion.Dial c now ctx address timeout w).2.log.drop w.log.length).filterMap
            Event.step = [0]) ∧
      (∀ remote err,
        c.ResolveUDPAddr (context.WithTimeout now ctx timeout) address = .ok remote →
        c.DialQUIC (context.WithTimeout now ctx timeout) remote
          ⟨true, [c.SingleStreamProto]⟩ = .error err →
        (scion.Dial c now ctx address timeout w).1 = ⟨none, some err⟩ ∧
          ((scion.Dial c now ctx address timeout w).2.log.drop w.log.length).filterMap
            Event.step = [0, 1]) ∧
      (∀ remote session err,
        c.ResolveUDPAddr (context.WithTimeout now ctx timeout) address = .ok remote →
        c.DialQUIC (context.WithTimeout now ctx timeout) remote
          ⟨true, [c.SingleStreamProto]⟩ = .ok session →
        c.NewSingleStream session = .error err →
        (scion.Dial c now ctx address timeout w).1 = ⟨none, some err⟩ ∧
          ((scion.Dial c now ctx address timeout w).2.log.drop w.log.length).filterMap
            Event.step = [0, 1, 2]) ∧
      (∀ remote session ss,
        c.ResolveUDPAddr (context.WithTimeout now ctx timeout) address = .ok remote →
        c.DialQUIC (context.WithTimeout now ctx timeout) remote
          ⟨true, [c.SingleStreamProto]⟩ = .ok session →
        c.NewSingleStream session = .ok ss →
        (scion.Dial c now ctx address timeout w).1 = ⟨some ss, none⟩ ∧
          ((scion.Dial c now ctx address timeout w).2.log.drop w.log.length).filterMap
            Event.step = [0, 1, 2]) := by
  refine ⟨?_, ?_, ?_, ?_, ?_, ?_⟩
  · cases hr : c.ResolveUDPAddr (context.WithTimeout now ctx timeout) address with
    | error e =>
      rw [Dial_of_resolve_error c now ctx address timeout w e hr]
      simp [Event.step]
    | ok remote =>
      cases hd : c.DialQUIC (context.WithTimeout now ctx timeout) remote
          ⟨true, [c.SingleStreamProto]⟩ with
      | error e =>
        rw [Dial_of_dial_error c now ctx address timeout w remote e hr hd]
        simp [Event.step]
      | ok session =>
        cases hs : c.NewSingleStream session with
        | error e =>
          rw [Dial_of_stream_error c now ctx address timeout w remote session e hr hd hs]
          simp [Event.step]
        | ok ss =>
          rw [Dial_of_success c now ctx address timeout w remote session ss hr hd hs]
          simp [Event.step]
  · constructor
    · intro hok
      cases hr : c.ResolveUDPAddr (context.WithTimeout now ctx timeout) address with
      | error e =>
        rw [Dial_of_resolve_error c now ctx address timeout w e hr] at hok
        simp at hok
      | ok remote =>
        cases hd : c.DialQUIC (context.WithTimeout now ctx timeout) remote
            ⟨true, [c.SingleStreamProto]⟩ with
        | error e =>
          rw [Dial_of_dial_error c now ctx address timeout w remote e hr hd] at hok
          simp at hok
        | ok session =>
          cases hs : c.NewSingleStream session with
          | error e =>
            rw [Dial_of_stream_error c now ctx address timeout w remote session e hr hd hs]
              at hok
            simp at hok
          | ok ss => exact ⟨remote, session, ss, rfl, hd, hs⟩
    · rintro ⟨remote, session, ss, hr, hd, hs⟩
      rw [Dial_of_success c now ctx address timeout w remote session ss hr hd hs]
      simp
  · intro err hr
    rw [Dial_of_resolve_error c now ctx address timeout w err hr]
    simp [Event.step]
  · intro remote err hr hd
    rw [Dial_of_dial_error c now ctx address timeout w remote err hr hd]
    simp [Event.step]
  · intro remote session err hr hd hs
    rw [Dial_of_stream_error c now ctx address timeout w remote session err hr hd hs]
    simp [Event.step]
  · intro remote session ss hr hd hs
    rw [Dial_of_success c now ctx address timeout w remote session ss hr hd hs]
    simp [Event.step]

/-- C10 on a run where every step succeeds and on one where the resolver fails. -/
theorem Dial_steps_witness :
    (scion.Dial (exampleCollab true) 0 ⟨none, none⟩
        "1-ff00:0:110,[127.0.0.1]:30041".toList 5 ⟨[], []⟩).1 = ⟨some ⟨1⟩, none⟩ ∧
      (scion.Dial (exampleCollab true) 0 ⟨none, none⟩ "127.0.0.1:8333".toList 5 ⟨[], []⟩).1
        = ⟨none, some (.parseError "no routing scope")⟩ :=
  ⟨((Dial_steps (exampleCollab true) 0 ⟨none, none⟩
      "1-ff00:0:110,[127.0.0.1]:30041".toList 5 ⟨[], []⟩).2.2.2.2.2
      ⟨⟨1, 0xff00 * 2 ^ 32 + 0x110⟩, .v4 127 0 0 1, 30041⟩ ⟨1⟩ ⟨1⟩
      (by decide) (by decide) (by decide)).1,
    ((Dial_steps (exampleCollab true) 0 ⟨none, none⟩ "127.0.0.1:8333".toList 5
      ⟨[], []⟩).2.2.1 (.parseError "no routing scope") (by decide)).1⟩

/-! ## Lemmas on the modelled PAN library -/

section ModelLemmas

open panModel bytealg

theorem cut_append {sep : Char} {a : GoString} (b : GoString) (h : sep ∉ a) :
    cut sep (a ++ sep :: b) = some (a, b) := by
  induction a with
  | nil => simp [cut]
  | cons x xs ih =>
    have hx : x ≠ sep := fun e => h (by simp [e])
    have hxs : sep ∉ xs := fun m => h (List.mem_cons_of_mem _ m)
    simp [cut, hx, ih hxs]

theorem cut_eq_none {sep : Char} {s : GoString} (h : sep ∉ s) : cut sep s = none := by
  induction s with
  | nil => rfl
  | cons x xs ih =>
    have hx : x ≠ sep := fun e => h (by simp [e])
    have hxs : sep ∉ xs := fun m => h (List.mem_cons_of_mem _ m)
    simp [cut, hx, ih hxs]

theorem cut_some {sep : Char} {s a b : GoString} (h : cut sep s = some (a, b)) :
    s = a ++ sep :: b ∧ sep ∉ a := by
  induction s generalizing a with
  | nil => simp [cut] at h
  | cons x xs ih =>
    by_cases hx : x = sep
    · simp [cut, hx] at h
      obtain ⟨rfl, rfl⟩ := h
      simp [hx]
    · simp only [cut, hx, if_false] at h
      cases hc : cut sep xs with
      | none => simp [hc] at h
      | some r =>
        obtain ⟨a2, b2⟩ := r
        simp [hc] at h
        obtain ⟨rfl, rfl⟩ := h
        obtain ⟨h1, h2⟩ := ih hc
        refine ⟨by simp [h1], ?_⟩
        intro hm
        rcases List.mem_cons.mp hm with e | m
        · exact hx e.symm
        · exact h2 m

theorem cutLast_eq_none {sep : Char} {s : GoString} (h : sep ∉ s) : cutLast sep s = none := by
  induction s with
  | nil => rfl
  | cons x xs ih =>
    have hx : x ≠ sep := fun e => h (by simp [e])
    have hxs : sep ∉ xs := fun m => h (List.mem_cons_of_mem _ m)
    simp [cutLast, hx, ih hxs]

theorem cutLast_append {sep : Char} (a : GoString) {b : GoString} (h : sep ∉ b) :
    cutLast sep (a ++ sep :: b) = some (a, b) := by
  induction a with
  | nil => simp [cutLast, cutLast_eq_none h]
  | cons x xs ih => simp [cutLast, ih]

theorem LastIndexByteString_eq_none {s : GoString} {c : Char} (h : c ∉ s) :
    LastIndexByteString s c = none := by
  induction s with
  | nil => rfl
  | cons x xs ih =>
    have hx : x ≠ c := fun e => h (by simp [e])
    have hxs : c ∉ xs := fun m => h (List.mem_cons_of_mem _ m)
    simp [LastIndexByteString, hx, ih hxs]

theorem LastIndexByteString_append {c : Char} (a : GoString) {b : GoString} (h : c ∉ b) :
    LastIndexByteString (a ++ c :: b) c = some a.length := by
  induction a with
  | nil => simp [LastIndexByteString, LastIndexByteString_eq_none h]
  | cons x xs ih => simp [LastIndexByteString, ih]

theorem IndexByteString_append {c : Char} {a : GoString} (b : GoString) (h : c ∉ a) :
    IndexByteString (a ++ c :: b) c = some a.length := by
  induction a with
  | nil => simp [IndexByteString]
  | cons x xs ih =>
    have hx : x ≠ c := fun e => h (by simp [e])
    have hxs : c ∉ xs := fun m => h (List.mem_cons_of_mem _ m)
    simp [IndexByteString, hx, ih hxs]

theorem parseDec_mem {s : GoString} {n : Nat} (h : parseDec s = some n) :
    s ≠ [] ∧ ∀ c ∈ s, c ∈ decDigits := by
  unfold parseDec at h
  split at h
  · rename_i hg
    refine ⟨hg.1, ?_⟩
    have := hg.2
    simpa [List.all_eq_true] using this
  · simp at h

theorem contains_mem {cs : List Char} {c : Char} (h : cs.contains c = true) : c ∈ cs := by
  simpa [List.contains] using h

theorem decDigits_scope {c : Char} (h : c ∈ decDigits) : c ∈ scopeChars :=
  (by decide : ∀ x ∈ decDigits, x ∈ scopeChars) c h

theorem hexDigits_scope {c : Char} (h : c ∈ hexDigits) : c ∈ scopeChars :=
  (by decide : ∀ x ∈ hexDigits, x ∈ scopeChars) c h

theorem decDigits_ip {c : Char} (h : c ∈ decDigits) : c ∈ ipChars :=
  (by decide : ∀ x ∈ decDigits, x ∈ ipChars) c h

theorem hexDigits_ip {c : Char} (h : c ∈ hexDigits) : c ∈ ipChars :=
  (by decide : ∀ x ∈ hexDigits, x ∈ ipChars) c h

theorem parseAS_mem {s : GoString} {a : Nat} (h : parseAS s = some a) :
    ∀ c ∈ s, c ∈ scopeChars := by
  unfold parseAS at h
  split at h
  · split at h
    · rename_i hg
      intro c hc
      have := (List.all_eq_true.mp hg) c hc
      simp only [Bool.or_eq_true, beq_iff_eq] at this
      rcases this with h1 | h1
      · exact hexDigits_scope (contains_mem h1)
      · subst h1; decide
    · simp at h
  · cases hd : parseDec s with
    | none => simp [hd] at h
    | some n =>
      intro c hc
      exact decDigits_scope ((parseDec_mem hd).2 c hc)

theorem parseIA_mem {s : GoString} {ia : pan.IA} (h : parseIA s = some ia) :
    s ≠ [] ∧ ∀ c ∈ s, c ∈ scopeChars := by
  unfold parseIA at h
  cases hc : cut '-' s with
  | none => simp [hc] at h
  | some r =>
    obtain ⟨isd, as⟩ := r
    simp only [hc] at h
    obtain ⟨hs, _⟩ := cut_some hc
    cases hd : parseDec isd with
    | none => simp [hd] at h
    | some i =>
      cases ha : parseAS as with
      | none => simp [hd, ha] at h
      | some a =>
        refine ⟨by simp [hs], ?_⟩
        intro c hm
        rw [hs] at hm
        rcases List.mem_append.mp hm with m | m
        · exact decDigits_scope ((parseDec_mem hd).2 c m)
        · rcases List.mem_cons.mp m with e | m
          · subst e; decide
          · exact parseAS_mem ha c m

theorem parseIPv4_mem {s : GoString} {a : netip.Addr} (h : parseIPv4 s = some a) :
    s ≠ [] ∧ ∀ c ∈ s, c ∈ decDigits ∨ c = '.' := by
  unfold parseIPv4 at h
  split at h
  · rename_i hg
    constructor
    · rintro rfl
      simp [splitOn] at h
    · intro c hc
      have := (List.all_eq_true.mp hg) c hc
      simp only [Bool.or_eq_true, beq_iff_eq] at this
      exact this.imp contains_mem id
  · simp at h

theorem parseIPv6_mem {s : GoString} {a : netip.Addr} (h : parseIPv6 s = some a) :
    s ≠ [] ∧ ∀ c ∈ s, c ∈ hexDigits ∨ c = ':' := by
  have hne : s ≠ [] := by
    rintro rfl
    have h0 : parseIPv6 [] = none := by decide
    rw [h0] at h
    cases h
  unfold parseIPv6 at h
  split at h
  · rename_i hg
    refine ⟨hne, ?_⟩
    · intro c hc
      have := (List.all_eq_true.mp hg) c hc
      simp only [Bool.or_eq_true, beq_iff_eq] at this
      exact this.imp contains_mem id
  · simp at h

theorem parseIP_mem {s : GoString} {a : netip.Addr} (h : parseIP s = some a) :
    s ≠ [] ∧ ∀ c ∈ s, c ∈ ipChars := by
  unfold parseIP at h
  cases h4 : parseIPv4 s with
  | some b =>
    obtain ⟨h1, h2⟩ := parseIPv4_mem h4
    refine ⟨h1, fun c hc => ?_⟩
    rcases h2 c hc with m | m
    · exact decDigits_ip m
    · subst m; decide
  | none =>
    simp only [h4] at h
    obtain ⟨h1, h2⟩ := parseIPv6_mem h
    refine ⟨h1, fun c hc => ?_⟩
    rcases h2 c hc with m | m
    · exact hexDigits_ip m
    · subst m; decide

theorem parsePort_mem {s : GoString} {n : Nat} (h : parsePort s = some n) :
    s ≠ [] ∧ ∀ c ∈ s, c ∈ decDigits := by
  unfold parsePort at h
  cases hd : parseDec s with
  | none => simp [hd] at h
  | some m => exact parseDec_mem hd

theorem not_mem_of_chars {s : GoString} {cs : List Char} (h : ∀ c ∈ s, c ∈ cs) {c : Char}
    (hc : c ∉ cs) : c ∉ s :=
  fun m => hc (h c m)

theorem ParseUDPAddr_bracketed {scope ip port : GoString} {ia : pan.IA} {a : netip.Addr}
    {n : Nat} (hs : parseIA scope = some ia) (hi : parseIP ip = some a)
    (hp : parsePort port = some n) :
    panModel.ParseUDPAddr (scope ++ ',' :: '[' :: (ip ++ ']' :: ':' :: port))
      = .ok ⟨ia, a, n⟩ := by
  have h1 : ',' ∉ scope := not_mem_of_chars (parseIA_mem hs).2 (by decide)
  have h2 : ']' ∉ ip := not_mem_of_chars (parseIP_mem hi).2 (by decide)
  simp [panModel.ParseUDPAddr, cut_append _ h1, hs, parseHostPort, cut_append _ h2, hi, hp]

theorem parseHostPort_bare {ip port : GoString} (h3 : '[' ∉ ip) (h2 : ':' ∉ port) :
    parseHostPort (ip ++ ':' :: port) =
      match parseIP ip, parsePort port with
      | some a, some p => some (a, p)
      | _, _ => none := by
  have hh : (ip ++ ':' :: port).head? ≠ some '[' := by
    cases ip with
    | nil => simp
    | cons x xs =>
      simp only [List.cons_append, List.head?_cons, ne_eq, Option.some.injEq]
      rintro rfl
      exact h3 (by simp)
  simp only [parseHostPort, if_neg hh, cutLast_append _ h2]

theorem ParseUDPAddr_bare {scope ip port : GoString} {ia : pan.IA} {a : netip.Addr}
    {n : Nat} (hs : parseIA scope = some ia) (hi : parseIPv4 ip = some a)
    (hp : parsePort port = some n) :
    panModel.ParseUDPAddr (scope ++ ',' :: (ip ++ ':' :: port)) = .ok ⟨ia, a, n⟩ := by
  have h1 : ',' ∉ scope := not_mem_of_chars (parseIA_mem hs).2 (by decide)
  have h2 : ':' ∉ port := not_mem_of_chars (parsePort_mem hp).2 (by decide)
  have h3 : '[' ∉ ip := by
    intro m
    rcases (parseIPv4_mem hi).2 _ m with h | h
    · revert h; decide
    · revert h; decide
  have hi2 : parseIP ip = some a := by simp [parseIP, hi]
  simp [panModel.ParseUDPAddr, cut_append _ h1, hs, parseHostPort_bare h3 h2, hi2, hp]

theorem net_SplitHostPort_err_of_bracket {s : GoString} (hh : s.head? ≠ some '[')
    (hb : '[' ∈ s) : (net.SplitHostPort s).err ≠ none := by
  unfold net.SplitHostPort
  cases LastIndexByteString s ':' with
  | none => simp [net.addrErr]
  | some i =>
    simp only [if_neg hh]
    by_cases hc : (IndexByteString (List.take i s) ':').isSome = true
    · simp [hc, net.addrErr]
    · simp [hc, net.splitTail, IndexByteString_isSome hb, net.addrErr]

theorem net_SplitHostPort_plain {h p : GoString} (h1 : '[' ∉ h) (h2 : ']' ∉ h)
    (p1 : ':' ∉ p) (p2 : '[' ∉ p) (p3 : ']' ∉ p) :
    net.SplitHostPort (h ++ ':' :: p) =
      if ':' ∈ h then net.addrErr (h ++ ':' :: p) net.tooManyColons else ⟨h, p, none⟩ := by
  have hh : (h ++ ':' :: p).head? ≠ some '[' := by
    cases h with
    | nil => simp
    | cons x xs =>
      simp only [List.cons_append, List.head?_cons, ne_eq, Option.some.injEq]
      rintro rfl
      exact h1 (by simp)
  have hb1 : '[' ∉ h ++ ':' :: p := by simp [h1, p2]
  have hb2 : ']' ∉ h ++ ':' :: p := by simp [h2, p3]
  unfold net.SplitHostPort
  rw [LastIndexByteString_append _ p1]
  simp only [if_neg hh, List.take_left']
  by_cases hc : ':' ∈ h
  · simp [hc, IndexByteString_isSome hc]
  · simp [hc, IndexByteString_eq_none hc, net.splitTail, IndexByteString_eq_none hb1,
      IndexByteString_eq_none hb2]

theorem net_SplitHostPort_bracketed {h p : GoString} (h1 : '[' ∉ h) (h2 : ']' ∉ h)
    (p1 : ':' ∉ p) (p2 : '[' ∉ p) (p3 : ']' ∉ p) :
    net.SplitHostPort ('[' :: (h ++ ']' :: ':' :: p)) = ⟨h, p, none⟩ := by
  have e1 : ('[' :: (h ++ ']' :: ':' :: p) : GoString) = ('[' :: (h ++ [']'])) ++ ':' :: p := by
    simp
  have e2 : ('[' :: (h ++ ']' :: ':' :: p) : GoString) = ('[' :: h) ++ ']' :: (':' :: p) := by
    simp
  have hl : LastIndexByteString ('[' :: (h ++ ']' :: ':' :: p)) ':' = some (h.length + 2) := by
    rw [e1, LastIndexByteString_append _ p1]
    simp
  have hi : IndexByteString ('[' :: (h ++ ']' :: ':' :: p)) ']' = some (h.length + 1) := by
    rw [e2, IndexByteString_append _ (by simp [h2])]
    simp
  have t1 : '[' ∉ h ++ ']' :: ':' :: p := by simp [h1, p2]
  have t2 : ']' ∉ (':' :: p : GoString) := by simp [p3]
  unfold net.SplitHostPort
  rw [hl, hi]
  have d1 : List.drop (h.length + 1 + 1) ('[' :: (h ++ ']' :: ':' :: p)) = ':' :: p := by
    simp
  have d2 : List.drop (h.length + 2 + 1) ('[' :: (h ++ ']' :: ':' :: p)) = p := by
    simp
  have d3 : List.drop 1 (List.take (h.length + 1) ('[' :: (h ++ ']' :: ':' :: p))) = h := by
    simp
  simp only [List.head?_cons, if_true, net.splitTail, d1, d2, d3]
  simp [IndexByteString_eq_none t1, IndexByteString_eq_none t2]

theorem net_Split_Join {h p : GoString} (h1 : '[' ∉ h) (h2 : ']' ∉ h)
    (p1 : ':' ∉ p) (p2 : '[' ∉ p) (p3 : ']' ∉ p) :
    net.SplitHostPort (net.JoinHostPort h p) = ⟨h, p, none⟩ := by
  by_cases hc : ':' ∈ h
  · have : net.JoinHostPort h p = '[' :: (h ++ ']' :: ':' :: p) := by
      simp [net.JoinHostPort, IndexByteString_isSome hc]
    rw [this, net_SplitHostPort_bracketed h1 h2 p1 p2 p3]
  · have : net.JoinHostPort h p = h ++ ':' :: p := by
      simp [net.JoinHostPort, IndexByteString_eq_none hc]
    rw [this, net_SplitHostPort_plain h1 h2 p1 p2 p3, if_neg hc]

theorem isScopedHost_bracketed {scope ip : GoString} {ia : pan.IA} {a : netip.Addr}
    (hs : parseIA scope = some ia) (hi : parseIP ip = some a) :
    isScopedHost (scope ++ ',' :: '[' :: (ip ++ [']'])) = true := by
  have h1 : ',' ∉ scope := not_mem_of_chars (parseIA_mem hs).2 (by decide)
  have h2 : ']' ∉ ip := not_mem_of_chars (parseIP_mem hi).2 (by decide)
  have h3 : '[' ∉ ip := not_mem_of_chars (parseIP_mem hi).2 (by decide)
  have h4 : ip ≠ [] := (parseIP_mem hi).1
  simp [isScopedHost, cut_append _ h1, hs, isBracketed, cut_append _ h2, h3, h4]

theorem isScopedHost_bare {scope h : GoString} {ia : pan.IA}
    (hs : parseIA scope = some ia) (h0 : h ≠ []) (h1 : ':' ∉ h) (h2 : '[' ∉ h)
    (h3 : ']' ∉ h) : isScopedHost (scope ++ ',' :: h) = true := by
  have hc : ',' ∉ scope := not_mem_of_chars (parseIA_mem hs).2 (by decide)
  have hall : ∀ c ∈ h, (c != ':' && c != '[' && c != ']') = true := by
    intro c hm
    have e1 : c ≠ ':' := fun e => h1 (e ▸ hm)
    have e2 : c ≠ '[' := fun e => h2 (e ▸ hm)
    have e3 : c ≠ ']' := fun e => h3 (e ▸ hm)
    simp [e1, e2, e3]
  have hb : isBare h = true := by
    rw [isBare, Bool.and_eq_true, List.all_eq_true]
    exact ⟨by simp [h0], hall⟩
  simp [isScopedHost, cut_append _ hc, hs, hb]

theorem model_SplitHostPort_ok {host port : GoString} {n : Nat}
    (hh : isScopedHost host = true) (hp : parseDec port = some n) :
    panModel.SplitHostPort (host ++ ':' :: port) = ⟨host, port, none⟩ := by
  have h2 : ':' ∉ port := not_mem_of_chars (parseDec_mem hp).2 (by decide)
  simp [panModel.SplitHostPort, cutLast_append _ h2, hh, hp]

theorem SplitHostPort_of_net_ok (lib : PanLib) {s h p : GoString}
    (hnet : net.SplitHostPort s = ⟨h, p, none⟩) :
    scion.SplitHostPort lib s = ⟨h, p, none⟩ := by
  simp [scion.SplitHostPort, hnet]

theorem SplitHostPort_of_net_err (lib : PanLib) {s : GoString}
    (hnet : (net.SplitHostPort s).err ≠ none) :
    scion.SplitHostPort lib s = lib.SplitHostPort s := by
  simp [scion.SplitHostPort, hnet]

theorem SplitHostPort_bracketed {scope ip port : GoString} {ia : pan.IA} {a : netip.Addr}
    {n : Nat} (hs : parseIA scope = some ia) (hi : parseIP ip = some a)
    (hp : parseDec port = some n) :
    scion.SplitHostPort panModel.lib (scope ++ ',' :: '[' :: (ip ++ ']' :: ':' :: port))
      = ⟨scope ++ ',' :: '[' :: (ip ++ [']']), port, none⟩ := by
  have h1 : '[' ∉ scope := not_mem_of_chars (parseIA_mem hs).2 (by decide)
  have hne : scope ≠ [] := (parseIA_mem hs).1
  have hh : (scope ++ ',' :: '[' :: (ip ++ ']' :: ':' :: port)).head? ≠ some '[' := by
    cases scope with
    | nil => exact absurd rfl hne
    | cons x xs =>
      simp only [List.cons_append, List.head?_cons, ne_eq, Option.some.injEq]
      rintro rfl
      exact h1 (by simp)
  rw [SplitHostPort_of_net_err _ (net_SplitHostPort_err_of_bracket hh (by simp))]
  have e : (scope ++ ',' :: '[' :: (ip ++ ']' :: ':' :: port) : GoString)
      = (scope ++ ',' :: '[' :: (ip ++ [']'])) ++ ':' :: port := by simp
  rw [e]
  exact model_SplitHostPort_ok (isScopedHost_bracketed hs hi) hp

theorem SplitHostPort_bare {scope ip port : GoString} {ia : pan.IA} {a : netip.Addr}
    {n : Nat} (hs : parseIA scope = some ia) (hi : parseIPv4 ip = some a)
    (hp : parseDec port = some n) :
    scion.SplitHostPort panModel.lib (scope ++ ',' :: (ip ++ ':' :: port))
      = ⟨scope ++ ',' :: ip, port, none⟩ := by
  have s1 : '[' ∉ scope := not_mem_of_chars (parseIA_mem hs).2 (by decide)
  have s2 : ']' ∉ scope := not_mem_of_chars (parseIA_mem hs).2 (by decide)
  have hchars : ∀ c ∈ ip, c ∈ ipChars := fun c m =>
    ((parseIPv4_mem hi).2 c m).elim decDigits_ip (fun e => e ▸ by decide)
  have i0 : ip ≠ [] := (parseIPv4_mem hi).1
  have i1 : '[' ∉ ip := not_mem_of_chars hchars (by decide)
  have i2 : ']' ∉ ip := not_mem_of_chars hchars (by decide)
  have i3 : ':' ∉ ip := by
    intro m
    rcases (parseIPv4_mem hi).2 _ m with h | h
    · revert h; decide
    · revert h; decide
  have p1 : ':' ∉ port := not_mem_of_chars (parseDec_mem hp).2 (by decide)
  have p2 : '[' ∉ port := not_mem_of_chars (parseDec_mem hp).2 (by decide)
  have p3 : ']' ∉ port := not_mem_of_chars (parseDec_mem hp).2 (by decide)
  have e : (scope ++ ',' :: (ip ++ ':' :: port) : GoString)
      = (scope ++ ',' :: ip) ++ ':' :: port := by simp
  have hn := net_SplitHostPort_plain (h := scope ++ ',' :: ip) (p := port)
    (by simp [s1, i1]) (by simp [s2, i2]) p1 p2 p3
  rw [e]
  by_cases hc : ':' ∈ scope ++ ',' :: ip
  · rw [if_pos hc] at hn
    rw [SplitHostPort_of_net_err _ (by rw [hn]; simp [net.addrErr])]
    exact model_SplitHostPort_ok (isScopedHost_bare hs i0 i3 i1 i2) hp
  · rw [if_neg hc] at hn
    exact SplitHostPort_of_net_ok _ hn

/-! ## Claims on the modelled PAN library -/

/-- C2: every valid PathAddress string, `scope,[ip]:port` with an IPv4 or IPv6
literal between the brackets or `scope,ipv4:port`, is detected by `IsAddress`,
and `SplitHostPort` succeeds on it, returning everything before the final
colon as host and the digits after it as port. -/
theorem PathAddress_detect_split (scope ip port : GoString)
    (hs : (panModel.parseIA scope).isSome = true)
    (hp : (panModel.parsePort port).isSome = true) :
    ((panModel.parseIP ip).isSome = true →
        scion.IsAddress panModel.lib (scope ++ ",[".toList ++ ip ++ "]:".toList ++ port) = true ∧
        scion.SplitHostPort panModel.lib (scope ++ ",[".toList ++ ip ++ "]:".toList ++ port)
          = ⟨scope ++ ",[".toList ++ ip ++ "]".toList, port, none⟩) ∧
      ((panModel.parseIPv4 ip).isSome = true →
        scion.IsAddress panModel.lib (scope ++ ",".toList ++ ip ++ ":".toList ++ port) = true ∧
        scion.SplitHostPort panModel.lib (scope ++ ",".toList ++ ip ++ ":".toList ++ port)
          = ⟨scope ++ ",".toList ++ ip, port, none⟩) := by
  obtain ⟨ia, hia⟩ := Option.isSome_iff_exists.mp hs
  obtain ⟨n, hn⟩ := Option.isSome_iff_exists.mp hp
  have hd : ∃ m, panModel.parseDec port = some m := by
    unfold panModel.parsePort at hn
    cases h : panModel.parseDec port with
    | none => simp [h] at hn
    | some m => exact ⟨m, rfl⟩
  obtain ⟨m, hm⟩ := hd
  constructor
  · intro hi
    obtain ⟨a, ha⟩ := Option.isSome_iff_exists.mp hi
    have e1 : scope ++ ",[".toList ++ ip ++ "]:".toList ++ port
        = scope ++ ',' :: '[' :: (ip ++ ']' :: ':' :: port) := by simp
    have e2 : scope ++ ",[".toList ++ ip ++ "]".toList
        = scope ++ ',' :: '[' :: (ip ++ [']']) := by simp
    rw [e1, e2]
    refine ⟨?_, SplitHostPort_bracketed hia ha hm⟩
    simp [scion.IsAddress, panModel.lib, ParseUDPAddr_bracketed hia ha hn]
  · intro hi
    obtain ⟨a, ha⟩ := Option.isSome_iff_exists.mp hi
    have e1 : scope ++ ",".toList ++ ip ++ ":".toList ++ port
        = scope ++ ',' :: (ip ++ ':' :: port) := by simp
    have e2 : scope ++ ",".toList ++ ip = scope ++ ',' :: ip := by simp
    rw [e1, e2]
    refine ⟨?_, SplitHostPort_bare hia ha hm⟩
    simp [scion.IsAddress, panModel.lib, ParseUDPAddr_bare hia ha hn]

/-- C2 at `1-ff00:0:110,[127.0.0.1]:30041`: host `1-ff00:0:110,[127.0.0.1]`, port
`30041`. -/
theorem PathAddress_detect_split_witness :
    scion.IsAddress panModel.lib "1-ff00:0:110,[127.0.0.1]:30041".toList = true ∧
      scion.SplitHostPort panModel.lib "1-ff00:0:110,[127.0.0.1]:30041".toList
        = ⟨"1-ff00:0:110,[127.0.0.1]".toList, "30041".toList, none⟩ :=
  (PathAddress_detect_split "1-ff00:0:110".toList "127.0.0.1".toList "30041".toList
    (by decide) (by decide)).1 (by decide)

/-- C6: for every string that lacks a routing-scope prefix, `IsAddress` is false
and `ExtractIPPort` fails with a parse error, a nil IP and port 0. -/
theorem no_scope_rejected (s : GoString) (h : LacksScope s) :
    scion.IsAddress panModel.lib s = false ∧
      ∃ msg, scion.ExtractIPPort panModel.lib s = ⟨none, 0, some (.parseError msg)⟩ := by
  have key : ∃ msg, panModel.ParseUDPAddr s = .error (.parseError msg) := by
    unfold panModel.ParseUDPAddr
    cases hc : cut ',' s with
    | none => exact ⟨_, rfl⟩
    | some r =>
      obtain ⟨scope, rest⟩ := r
      have hs := (cut_some hc).1
      have := h scope rest (by simp [hs])
      simp only [this]
      exact ⟨_, rfl⟩
  obtain ⟨msg, hmsg⟩ := key
  refine ⟨?_, msg, ?_⟩
  · simp [scion.IsAddress, panModel.lib, hmsg]
  · simp [scion.ExtractIPPort, panModel.lib, hmsg]

theorem LacksScope_of_no_comma {s : GoString} (h : ',' ∉ s) : LacksScope s := by
  intro scope rest e
  exact absurd (by rw [e]; simp) h

/-- C6 at `1.2.3.4:80` and at `127.0.0.1:8333`. -/
theorem no_scope_rejected_witness :
    (scion.IsAddress panModel.lib "1.2.3.4:80".toList = false ∧
        ∃ msg, scion.ExtractIPPort panModel.lib "1.2.3.4:80".toList
          = ⟨none, 0, some (.parseError msg)⟩) ∧
      (scion.IsAddress panModel.lib "127.0.0.1:8333".toList = false ∧
        ∃ msg, scion.ExtractIPPort panModel.lib "127.0.0.1:8333".toList
          = ⟨none, 0, some (.parseError msg)⟩) :=
  ⟨no_scope_rejected _ (LacksScope_of_no_comma (by decide)),
    no_scope_rejected _ (LacksScope_of_no_comma (by decide))⟩

theorem IsAddress_false_of_no_comma {s : GoString} (h : ',' ∉ s) :
    scion.IsAddress panModel.lib s = false := by
  simp [scion.IsAddress, panModel.lib, panModel.ParseUDPAddr, cut_eq_none h]

theorem JoinHostPort_of_not_address {host : GoString} (port : GoString)
    (h : scion.IsAddress panModel.lib (host ++ ":0".toList) = false) :
    scion.JoinHostPort panModel.lib host port = net.JoinHostPort host port := by
  rw [scion.JoinHostPort, isHost_eq, h]
  simp

theorem JoinHostPort_of_address {host : GoString} (port : GoString) (hc : ',' ∈ host)
    (h : scion.IsAddress panModel.lib (host ++ ":0".toList) = true) :
    scion.JoinHostPort panModel.lib host port = host ++ ':' :: port := by
  rw [scion.JoinHostPort, isHost_eq, h]
  simp [hc]

theorem cut_of_mem {sep : Char} {s : GoString} (h : sep ∈ s) :
    ∃ a b, cut sep s = some (a, b) := by
  induction s with
  | nil => simp at h
  | cons x xs ih =>
    by_cases hx : x = sep
    · exact ⟨[], xs, by simp [cut, hx]⟩
    · have hxs : sep ∈ xs := by
        rcases List.mem_cons.mp h with e | m
        · exact absurd e.symm hx
        · exact m
      obtain ⟨a, b, hab⟩ := ih hxs
      exact ⟨x :: a, b, by simp [cut, hx, hab]⟩

theorem parseIA_none_of_mem {s : GoString} {c : Char} (hm : c ∈ s) (hc : c ∉ scopeChars) :
    parseIA s = none := by
  cases h : parseIA s with
  | none => rfl
  | some ia => exact absurd ((parseIA_mem h).2 c hm) hc

theorem IsAddress_false_of_zone {a z : GoString} (ha : ',' ∉ a) :
    scion.IsAddress panModel.lib (a ++ '%' :: z) = false := by
  by_cases hz : ',' ∈ z
  · obtain ⟨z1, z2, hcut⟩ := cut_of_mem hz
    obtain ⟨hz12, hz1⟩ := cut_some hcut
    have e : a ++ '%' :: z = (a ++ '%' :: z1) ++ ',' :: z2 := by simp [hz12]
    have hpre : ',' ∉ a ++ '%' :: z1 := by simp [ha, hz1]
    have hia : parseIA (a ++ '%' :: z1) = none :=
      parseIA_none_of_mem (c := '%') (by simp) (by decide)
    have hp : panModel.ParseUDPAddr ((a ++ '%' :: z1) ++ ',' :: z2)
        = .error (.parseError "invalid routing scope") := by
      unfold panModel.ParseUDPAddr
      rw [cut_append _ hpre]
      simp only [hia]
    rw [e]
    unfold scion.IsAddress
    simp only [panModel.lib]
    rw [hp]
  · exact IsAddress_false_of_no_comma (by simp [ha, hz])

theorem isIPv6Text_chars {s : GoString} (h : isIPv6Text s = true) : ∀ c ∈ s, c ∈ ipChars := by
  unfold isIPv6Text at h
  have hall := (Bool.and_eq_true _ _ ▸ h).1
  intro c hc
  exact contains_mem ((List.all_eq_true.mp hall) c hc)

theorem classicHost_brackets {host : GoString} (h : IsClassicHost host) :
    '[' ∉ host ∧ ']' ∉ host := by
  rcases h with h | h | h
  · have hall := List.all_eq_true.mp h
    exact ⟨fun m => absurd (hall _ m) (by decide), fun m => absurd (hall _ m) (by decide)⟩
  · obtain ⟨a, ha⟩ := Option.isSome_iff_exists.mp h
    have hchars : ∀ c ∈ host, c ∈ ipChars := fun c m =>
      ((parseIPv4_mem ha).2 c m).elim decDigits_ip (fun e => e ▸ by decide)
    exact ⟨not_mem_of_chars hchars (by decide), not_mem_of_chars hchars (by decide)⟩
  · unfold isIPv6Literal at h
    cases hc : cut '%' host with
    | none =>
      simp only [hc] at h
      have hchars := isIPv6Text_chars h
      exact ⟨not_mem_of_chars hchars (by decide), not_mem_of_chars hchars (by decide)⟩
    | some r =>
      obtain ⟨addr, zone⟩ := r
      simp only [hc, Bool.and_eq_true] at h
      obtain ⟨⟨ht, _⟩, hz⟩ := h
      have hchars := isIPv6Text_chars ht
      have hzone := List.all_eq_true.mp hz
      have e := (cut_some hc).1
      have a1 : '[' ∉ addr := not_mem_of_chars hchars (by decide)
      have a2 : ']' ∉ addr := not_mem_of_chars hchars (by decide)
      have z1 : '[' ∉ zone := fun m => absurd (hzone _ m) (by decide)
      have z2 : ']' ∉ zone := fun m => absurd (hzone _ m) (by decide)
      rw [e]
      exact ⟨by simp [a1, z1], by simp [a2, z2]⟩

theorem classicHost_not_address {host : GoString} (h : IsClassicHost host) :
    scion.IsAddress panModel.lib (host ++ ":0".toList) = false := by
  rcases h with h | h | h
  · have hall := List.all_eq_true.mp h
    have c1 : ',' ∉ host := fun m => absurd (hall _ m) (by decide)
    exact IsAddress_false_of_no_comma (by simp [c1])
  · obtain ⟨a, ha⟩ := Option.isSome_iff_exists.mp h
    have hchars : ∀ c ∈ host, c ∈ ipChars := fun c m =>
      ((parseIPv4_mem ha).2 c m).elim decDigits_ip (fun e => e ▸ by decide)
    have c1 : ',' ∉ host := not_mem_of_chars hchars (by decide)
    exact IsAddress_false_of_no_comma (by simp [c1])
  · unfold isIPv6Literal at h
    cases hc : cut '%' host with
    | none =>
      simp only [hc] at h
      have c1 : ',' ∉ host := not_mem_of_chars (isIPv6Text_chars h) (by decide)
      exact IsAddress_false_of_no_comma (by simp [c1])
    | some r =>
      obtain ⟨addr, zone⟩ := r
      simp only [hc, Bool.and_eq_true] at h
      obtain ⟨⟨ht, _⟩, _⟩ := h
      have c1 : ',' ∉ addr := not_mem_of_chars (isIPv6Text_chars ht) (by decide)
      have e : host ++ ":0".toList = addr ++ '%' :: (zone ++ ":0".toList) := by
        rw [(cut_some hc).1]
        simp
      rw [e]
      exact IsAddress_false_of_zone c1

/-- C3, amended: `SplitHostPort (JoinHostPort host port)` succeeds and returns
exactly `(host, port)` for every classic host (host name, IPv4 literal, IPv6
literal with or without zone and embedded IPv4) and every port without colon
and bracket, and for every PathAddress host `scope,[ip]` (IPv4 or IPv6 literal)
or `scope,ip` (IPv4 literal) and every port that is a non-empty run of decimal
digits.  Nothing is said on `scope,ip` with an unbracketed IPv6 literal. -/
theorem Join_Split_roundtrip (host port : GoString) :
    (IsClassicHost host → ':' ∉ port → '[' ∉ port → ']' ∉ port →
        scion.SplitHostPort panModel.lib (scion.JoinHostPort panModel.lib host port)
          = ⟨host, port, none⟩) ∧
      (IsSplittablePathHost host → (panModel.parseDec port).isSome = true →
        scion.SplitHostPort panModel.lib (scion.JoinHostPort panModel.lib host port)
          = ⟨host, port, none⟩) := by
  constructor
  · intro hc p1 p2 p3
    obtain ⟨c2, c3⟩ := classicHost_brackets hc
    rw [JoinHostPort_of_not_address port (classicHost_not_address hc)]
    exact SplitHostPort_of_net_ok _ (net_Split_Join c2 c3 p1 p2 p3)
  · rintro ⟨scope, ip, hs, hhost⟩ hp
    obtain ⟨ia, hia⟩ := Option.isSome_iff_exists.mp hs
    obtain ⟨n, hn⟩ := Option.isSome_iff_exists.mp hp
    have h0 : panModel.parsePort ['0'] = some 0 := by decide
    rcases hhost with ⟨hi, e⟩ | ⟨hi, e⟩
    · obtain ⟨a, ha⟩ := Option.isSome_iff_exists.mp hi
      have e1 : host = scope ++ ',' :: '[' :: (ip ++ [']']) := by simp [e]
      have hadd : scion.IsAddress panModel.lib (host ++ ":0".toList) = true := by
        have : host ++ ":0".toList = scope ++ ',' :: '[' :: (ip ++ ']' :: ':' :: ['0']) := by
          simp [e1]
        rw [this]
        simp [scion.IsAddress, panModel.lib, ParseUDPAddr_bracketed hia ha h0]
      rw [JoinHostPort_of_address port (by simp [e1]) hadd]
      have : host ++ ':' :: port = scope ++ ',' :: '[' :: (ip ++ ']' :: ':' :: port) := by
        simp [e1]
      rw [this, SplitHostPort_bracketed hia ha hn, e1]
    · obtain ⟨a, ha⟩ := Option.isSome_iff_exists.mp hi
      have e1 : host = scope ++ ',' :: ip := by simp [e]
      have hadd : scion.IsAddress panModel.lib (host ++ ":0".toList) = true := by
        have : host ++ ":0".toList = scope ++ ',' :: (ip ++ ':' :: ['0']) := by simp [e1]
        rw [this]
        simp [scion.IsAddress, panModel.lib, ParseUDPAddr_bare hia ha h0]
      rw [JoinHostPort_of_address port (by simp [e1]) hadd]
      have : host ++ ':' :: port = scope ++ ',' :: (ip ++ ':' :: port) := by simp [e1]
      rw [this, SplitHostPort_bare hia ha hn, e1]

/-- C3 at the IPv6 literal `::1`, at the zoned literal `fe80::1%eth0`, at the
IPv4-embedded literal `::ffff:1.2.3.4` and at the PathAddress host
`1-ff00:0:110,[127.0.0.1]`. -/
theorem Join_Split_roundtrip_witness :
    scion.SplitHostPort panModel.lib
        (scion.JoinHostPort panModel.lib "::1".toList "8333".toList)
        = ⟨"::1".toList, "8333".toList, none⟩ ∧
      scion.SplitHostPort panModel.lib
        (scion.JoinHostPort panModel.lib "fe80::1%eth0".toList "8333".toList)
        = ⟨"fe80::1%eth0".toList, "8333".toList, none⟩ ∧
      scion.SplitHostPort panModel.lib
        (scion.JoinHostPort panModel.lib "::ffff:1.2.3.4".toList "8333".toList)
        = ⟨"::ffff:1.2.3.4".toList, "8333".toList, none⟩ ∧
      scion.SplitHostPort panModel.lib
        (scion.JoinHostPort panModel.lib "1-ff00:0:110,[127.0.0.1]".toList "30041".toList)
        = ⟨"1-ff00:0:110,[127.0.0.1]".toList, "30041".toList, none⟩ :=
  ⟨(Join_Split_roundtrip "::1".toList "8333".toList).1 (Or.inr (Or.inr (by decide)))
      (by decide) (by decide) (by decide),
    (Join_Split_roundtrip "fe80::1%eth0".toList "8333".toList).1
      (Or.inr (Or.inr (by decide))) (by decide) (by decide) (by decide),
    (Join_Split_roundtrip "::ffff:1.2.3.4".toList "8333".toList).1
      (Or.inr (Or.inr (by decide))) (by decide) (by decide) (by decide),
    (Join_Split_roundtrip "1-ff00:0:110,[127.0.0.1]".toList "30041".toList).2
      ⟨"1-ff00:0:110".toList, "127.0.0.1".toList, by decide, Or.inl ⟨by decide, by decide⟩⟩
      (by decide)⟩

/-- C3 fails as stated, in the port and in the host.  On the PathAddress host
`1-ff00:0:110,[127.0.0.1]` with the service name `http` as port, and on the
classic host `localhost` with the port `80:80`, splitting the joined string
returns an error.  On the PathAddress host `1-ff00:0:110,::1`, of the form
`scope,ip` with an unbracketed IPv6 literal, and the port `80`, the host with
the dummy port parses, so the join adds no brackets, and splitting
`1-ff00:0:110,::1:80` returns an error. -/
theorem Join_Split_fails :
    (IsPathHost "1-ff00:0:110,[127.0.0.1]".toList ∧
        (scion.SplitHostPort panModel.lib
          (scion.JoinHostPort panModel.lib "1-ff00:0:110,[127.0.0.1]".toList
            "http".toList)).err ≠ none) ∧
      (IsClassicHost "localhost".toList ∧
        (scion.SplitHostPort panModel.lib
          (scion.JoinHostPort panModel.lib "localhost".toList "80:80".toList)).err ≠ none) ∧
      (IsPathHost "1-ff00:0:110,::1".toList ∧
        scion.JoinHostPort panModel.lib "1-ff00:0:110,::1".toList "80".toList
          = "1-ff00:0:110,::1:80".toList ∧
        (scion.SplitHostPort panModel.lib
          (scion.JoinHostPort panModel.lib "1-ff00:0:110,::1".toList "80".toList)).err
            ≠ none) :=
  ⟨⟨⟨"1-ff00:0:110".toList, "127.0.0.1".toList, by decide, by decide, Or.inl (by decide)⟩,
      by decide⟩,
    ⟨Or.inl (by decide), by decide⟩,
    ⟨⟨"1-ff00:0:110".toList, "::1".toList, by decide, by decide, Or.inr (by decide)⟩,
      by decide, by decide⟩⟩

end ModelLemmas
